import Mathlib

/-!
# kubelet-helper: the config watcher and the kubelet reload chain

A shallow embedding of `helpers/reloader.go`.

* `reloadKubelet` is embedded as a function of an oracle that answers each
  command it executes; it returns the commands executed (in order), the
  lines logged and the Go `error` result.
* `WatchKubeletConfig` is embedded as a function of the sequence of values
  its `select` receives, each stamped with the instant of the receive (in
  nanoseconds, the unit of `time.Duration`).  The timers made by
  `time.AfterFunc` live in an explicit timer heap; `debounceTimer` is an
  index into it.
-/

namespace KubeletHelper

/-! ## Go errors -/

/-- Go `error` values: a leaf error (an `*exec.ExitError`, an `errors.New`
value, a `fmt.Errorf` without `%w`) or the `*fmt.wrapError` that
`fmt.Errorf` builds for a format with `%w`. -/
inductive GoError where
  | errorString (msg : String)
  | wrapError (msg : String) (err : GoError)
deriving DecidableEq, Repr

/-- The method `Error()`. -/
def GoError.Error : GoError → String
  | .errorString msg => msg
  | .wrapError msg _ => msg

/-- The method `Unwrap()` as seen by `errors.Unwrap`. -/
def GoError.Unwrap : GoError → Option GoError
  | .errorString _ => none
  | .wrapError _ err => some err

/-! ## External commands -/

/-- An `*exec.Cmd` as built by `exec.Command(name, arg...)`. -/
structure Cmd where
  Path : String
  Args : List String
deriving DecidableEq, Repr

/-- The function `exec.Command`. -/
def exec_Command (name : String) (arg : List String) : Cmd :=
  { Path := name, Args := arg }

/-- What `cmd.CombinedOutput()` returns: the combined stdout and stderr, and
the error (`none` is Go's `nil`). -/
structure CmdResult where
  output : String
  err : Option GoError
deriving DecidableEq, Repr

/-- The world that answers command executions: the result of running a
command may depend on the commands this invocation ran before it. -/
abbrev Runner := List Cmd → Cmd → CmdResult

/-- The observable behaviour of one call of `reloadKubelet`. -/
structure ReloadRun where
  /-- the commands executed, in order -/
  cmds : List Cmd
  /-- the lines written to the logger, in order -/
  logs : List String
  /-- the returned `error` -/
  ret : Option GoError
deriving DecidableEq, Repr

/-- The command `systemctl daemon-reload` (reloader.go line 91). -/
def daemonReloadCmd : Cmd := exec_Command "systemctl" ["daemon-reload"]

/-- The command `systemctl restart kubelet` (reloader.go line 96). -/
def restartCmd : Cmd := exec_Command "systemctl" ["restart", "kubelet"]

/-- The command `pkill -HUP -f ^/usr/bin/kubelet` (reloader.go line 104). -/
def sighupCmd : Cmd := exec_Command "pkill" ["-HUP", "-f", "^/usr/bin/kubelet"]

/-- The error that line 107 builds:
`fmt.Errorf("failed to reload kubelet with SIGHUP: %w, output: %s", err, string(output))`. -/
def sighupError (err : GoError) (output : String) : GoError :=
  .wrapError ("failed to reload kubelet with SIGHUP: " ++ err.Error ++ ", output: " ++ output) err

/-- The function `reloadKubelet` (reloader.go lines 87-113). -/
def reloadKubelet (run : Runner) : ReloadRun :=
  let logs0 := ["Reloading kubelet..."]
  let r1 := run [] daemonReloadCmd
  let logs1 :=
    match r1.err with
    | some e1 =>
      logs0 ++ ["systemctl daemon-reload failed: " ++ e1.Error ++ ", output: " ++ r1.output]
    | none => logs0
  let r2 := run [daemonReloadCmd] restartCmd
  match r2.err with
  | some e2 =>
    let logs2 := logs1 ++
      ["systemctl reload failed: " ++ e2.Error ++ ", output: " ++ r2.output,
       "Attempting alternative reload method using SIGHUP..."]
    let r3 := run [daemonReloadCmd, restartCmd] sighupCmd
    match r3.err with
    | some e3 =>
      { cmds := [daemonReloadCmd, restartCmd, sighupCmd]
        logs := logs2
        ret := some (sighupError e3 r3.output) }
    | none =>
      { cmds := [daemonReloadCmd, restartCmd, sighupCmd]
        logs := logs2 ++ ["Kubelet reload command executed successfully"]
        ret := none }
  | none =>
    { cmds := [daemonReloadCmd, restartCmd]
      logs := logs1 ++ ["Kubelet reload command executed successfully"]
      ret := none }

/-- The outcome of the daemon-reload step under `run`. -/
def daemonReloadOutcome (run : Runner) : CmdResult := run [] daemonReloadCmd

/-- The outcome of the restart step under `run`. -/
def restartOutcome (run : Runner) : CmdResult := run [daemonReloadCmd] restartCmd

/-- The outcome of the signal step under `run`, were it executed. -/
def sighupOutcome (run : Runner) : CmdResult := run [daemonReloadCmd, restartCmd] sighupCmd

/-- A runner given by the three outcomes of the three steps. -/
def runnerOf (r1 r2 r3 : CmdResult) : Runner := fun _ c =>
  if c = daemonReloadCmd then r1 else if c = restartCmd then r2 else r3

/-- A successful command with no output. -/
def okResult : CmdResult := { output := "", err := none }

/-- A command that exits with status 1 and prints `out`. -/
def failResult (out : String) : CmdResult :=
  { output := out, err := some (.errorString "exit status 1") }

/-! ## Time -/

/-- The constant `time.Second`, in nanoseconds (the unit of `time.Duration`). -/
def Second : Nat := 1000000000

/-- The constant `debounceDelay` (reloader.go lines 16-18). -/
def debounceDelay : Nat := 2 * Second

/-! ## fsnotify events -/

/-- The bit `fsnotify.Create` (`1 << 0` in the fsnotify library). -/
def Create : Nat := 1

/-- The bit `fsnotify.Write` (`1 << 1`). -/
def Write : Nat := 2

/-- The bit `fsnotify.Remove` (`1 << 2`). -/
def Remove : Nat := 4

/-- The bit `fsnotify.Rename` (`1 << 3`). -/
def Rename : Nat := 8

/-- The bit `fsnotify.Chmod` (`1 << 4`). -/
def Chmod : Nat := 16

/-- An `fsnotify.Event`: the path of the file and the bitset of operations. -/
structure Event where
  Name : String
  Op : Nat
deriving DecidableEq, Repr

/-- The function `strings.HasSuffix`:
`len(s) >= len(suffix) && s[len(s)-len(suffix):] == suffix`.
Strings are compared character by character; for the ASCII suffixes used
here this agrees with Go's byte-wise test on every valid UTF-8 name. -/
def HasSuffix (s suffix : String) : Bool :=
  decide (s.length ≥ suffix.length) &&
    (s.data.drop (s.length - suffix.length) == suffix.data)

/-- The function `filepath.Base` on a Unix path: strip trailing slashes, keep
what follows the last remaining slash; `"."` for the empty path and `"/"` for
a path of slashes only. -/
def filepath_Base (path : String) : String :=
  if path = "" then "."
  else
    let stripped := path.data.reverse.dropWhile (fun c => c == '/')
    let last := (stripped.takeWhile (fun c => c != '/')).reverse
    if last.isEmpty then "/" else String.mk last

/-- What one iteration of the `select` of `WatchKubeletConfig` receives. -/
inductive Recv where
  /-- `event, ok := <-watcher.Events` with `ok` true -/
  | event (e : Event)
  /-- `<-watcher.Events` with `ok` false: the channel is closed -/
  | eventsClosed
  /-- `err, ok := <-watcher.Errors` with `ok` true -/
  | watcherError (err : GoError)
  /-- `<-watcher.Errors` with `ok` false: the channel is closed -/
  | errorsClosed
deriving DecidableEq, Repr

/-- The lines the watch loop logs, by format string and arguments. -/
inductive LogLine where
  /-- `"Started watching %s for changes..."` -/
  | started (path : String)
  /-- `"Detected change: %s (%s)"` -/
  | detected (name : String) (op : Nat)
  /-- `"Ignoring non-config file change: %s"` -/
  | ignoring (name : String)
  /-- `"Watcher error: %v"` -/
  | watcherError (err : GoError)
deriving DecidableEq, Repr

/-! ## Timers -/

/-- The life of a `*time.Timer` made by `time.AfterFunc`: waiting for its
deadline, fired (its function was started), or stopped before it fired. -/
inductive TimerStatus where
  | pending
  | fired
  | stopped
deriving DecidableEq, Repr

/-- A timer made at line 68: its deadline, and the `event.Name` that its
closure captured. -/
structure Timer where
  when : Nat
  name : String
  status : TimerStatus
deriving DecidableEq, Repr

/-- The call `time.AfterFunc(d, f)` at instant `now`, for the closure of
line 68 over the event named `name`. -/
def AfterFunc (now d : Nat) (name : String) : Timer :=
  { when := now + d, name := name, status := .pending }

/-- The method `(*Timer).Stop`: a pending timer will not fire any more; a
timer that has fired or was stopped is left as it is. -/
def Timer.Stop (tm : Timer) : Timer :=
  if tm.status = .pending then { tm with status := .stopped } else tm

/-- The method `Stop` called through the pointer `i` into the timer heap. -/
def stopAt : Nat → List Timer → List Timer
  | _, [] => []
  | 0, tm :: rest => tm.Stop :: rest
  | i + 1, tm :: rest => tm :: stopAt i rest

/-- Whether a timer fires when the clock reaches `now`. -/
def Timer.due (now : Nat) (tm : Timer) : Bool :=
  decide (tm.status = .pending) && decide (tm.when ≤ now)

/-- The timer after the clock has reached `now`. -/
def Timer.expire (now : Nat) (tm : Timer) : Timer :=
  if tm.due now then { tm with status := .fired } else tm

/-! ## Reload invocations started by timers -/

/-- The world outside the program, per `reloadKubelet` invocation (numbered
from 0 in the order they start): what its commands answer and how long each
command blocks. -/
structure World where
  runner : Nat → Runner
  cmdTime : Nat → Cmd → Nat

/-- One execution of the timer function of lines 68-74. -/
structure ReloadExec where
  /-- the instant the timer fired and `reloadKubelet` was called -/
  start : Nat
  /-- the instant `reloadKubelet` returned -/
  finish : Nat
  /-- the `event.Name` captured by the closure -/
  name : String
  /-- what `reloadKubelet` did -/
  run : ReloadRun
  /-- the line logged at lines 70 or 72 -/
  log : String
deriving DecidableEq, Repr

/-- How long invocation number `k` of `reloadKubelet` blocks: the time of the
commands it executes, one after the other. -/
def chainTime (w : World) (k : Nat) : Nat :=
  ((reloadKubelet (w.runner k)).cmds.map (w.cmdTime k)).sum

/-- The timer function of lines 68-74, run as invocation number `k` when
timer `tm` fires at its deadline: `reloadKubelet` blocks for the time its
commands take. -/
def callback (w : World) (k : Nat) (tm : Timer) : ReloadExec :=
  let run := reloadKubelet (w.runner k)
  { start := tm.when
    finish := tm.when + chainTime w k
    name := tm.name
    run := run
    log :=
      match run.ret with
      | some err => "Error reloading kubelet: " ++ err.Error
      | none =>
        "Successfully reloaded kubelet after detecting changes in " ++ filepath_Base tm.name }

/-- The timers in `due` fire, in order: each starts one more execution. -/
def startReloads (w : World) : List ReloadExec → List Timer → List ReloadExec
  | rs, [] => rs
  | rs, tm :: rest => startReloads w (rs ++ [callback w rs.length tm]) rest

/-! ## The watch loop -/

/-- The state of a running `WatchKubeletConfig` and of the timers it made. -/
structure LoopState where
  /-- the clock -/
  now : Nat
  /-- every timer made so far, in order of creation -/
  timers : List Timer
  /-- the variable `debounceTimer` (line 45): `none` is `nil`, `some i` points
  to timer `i` of `timers` -/
  debounceTimer : Option Nat
  /-- the executions of the timer function started so far, in order -/
  reloads : List ReloadExec
  /-- the lines logged by the loop -/
  logs : List LogLine
  /-- the error returned; `none` while the loop has not returned -/
  ret : Option GoError
deriving DecidableEq, Repr

/-- The state when the loop is entered (after line 45). -/
def initState : LoopState :=
  { now := 0, timers := [], debounceTimer := none, reloads := [], logs := [], ret := none }

/-- Time passes until instant `t` (the clock never runs backwards): every
pending timer whose deadline has been reached fires, in order of creation,
which is the order of the deadlines. -/
def advance (w : World) (s : LoopState) (t : Nat) : LoopState :=
  let now := max s.now t
  { s with
    now := now
    timers := s.timers.map (Timer.expire now)
    reloads := startReloads w s.reloads (s.timers.filter (Timer.due now)) }

/-- The body of `case event, ok := <-watcher.Events` for `ok` true
(reloader.go lines 55-75). -/
def handleEvent (s : LoopState) (event : Event) : LoopState :=
  if event.Op &&& Write = Write ∨ event.Op &&& Create = Create then
    let s1 := { s with logs := s.logs ++ [LogLine.detected event.Name event.Op] }
    if !HasSuffix event.Name ".conf" then
      { s1 with logs := s1.logs ++ [LogLine.ignoring event.Name] }
    else
      let stopped :=
        match s1.debounceTimer with
        | some i => stopAt i s1.timers
        | none => s1.timers
      { s1 with
        timers := stopped ++ [AfterFunc s1.now debounceDelay event.Name]
        debounceTimer := some stopped.length }
  else s

/-- The loop of lines 48-83 run on the values its `select` receives, each
with the instant of the receive.  It ends when a channel is found closed
(the loop returns; what follows in the list is never received) or when the
list is exhausted (the loop blocks in `select`). -/
def loop (w : World) (s : LoopState) : List (Nat × Recv) → LoopState
  | [] => s
  | (t, r) :: rest =>
    let s1 := advance w s t
    match r with
    | .event e => loop w (handleEvent s1 e) rest
    | .eventsClosed =>
      { s1 with ret := some (.errorString "watcher event channel closed") }
    | .watcherError err =>
      loop w { s1 with logs := s1.logs ++ [LogLine.watcherError err] } rest
    | .errorsClosed =>
      { s1 with ret := some (.errorString "watcher error channel closed") }

/-- What watcher creation, `os.Stat` and `watcher.Add` answer (lines 25-40). -/
structure Setup where
  newWatcherErr : Option GoError
  statNotExist : Bool
  addErr : Option GoError

/-- The function `WatchKubeletConfig` (reloader.go lines 23-84). -/
def WatchKubeletConfig (w : World) (env : Setup) (kubeletConfigPath : String)
    (recvs : List (Nat × Recv)) : LoopState :=
  match env.newWatcherErr with
  | some err =>
    { initState with ret := some (.wrapError ("failed to create watcher: " ++ err.Error) err) }
  | none =>
    if env.statNotExist then
      { initState with
        ret := some (.errorString ("config directory " ++ kubeletConfigPath ++ " does not exist")) }
    else
      match env.addErr with
      | some err =>
        { initState with
          ret := some (.wrapError
            ("failed to watch directory " ++ kubeletConfigPath ++ ": " ++ err.Error) err) }
      | none => loop w { initState with logs := [LogLine.started kubeletConfigPath] } recvs

/-- The run observed up to instant `horizon`: the loop handles `recvs`, then
time passes until `horizon`. -/
def runUntil (w : World) (s : LoopState) (recvs : List (Nat × Recv)) (horizon : Nat) :
    LoopState :=
  advance w (loop w s recvs) horizon

/-! ## Notions used by the properties -/

/-- The event passes the filter of lines 56 and 58. -/
def Qualifies (e : Event) : Prop :=
  (e.Op &&& Write = Write ∨ e.Op &&& Create = Create) ∧ HasSuffix e.Name ".conf" = true

instance (e : Event) : Decidable (Qualifies e) := by
  unfold Qualifies; infer_instance

/-- The timer is waiting for its deadline. -/
def Timer.isPending (tm : Timer) : Bool := decide (tm.status = .pending)

/-- The timer has fired. -/
def Timer.isFired (tm : Timer) : Bool := decide (tm.status = .fired)

/-- No timer of the list is pending. -/
def NoPending (l : List Timer) : Prop := ∀ tm ∈ l, tm.status ≠ .pending

/-- The loop is armed with `tm`: `tm` is the newest timer, it is pending, it
is the one stored in `debounceTimer`, and no older timer is pending. -/
def ArmedWith (s : LoopState) (tm : Timer) : Prop :=
  ∃ l, s.timers = l ++ [tm] ∧ NoPending l ∧ tm.status = .pending ∧
    s.debounceTimer = some l.length

/-- Each execution starts at least `debounceDelay` after the one before. -/
def Spaced (rs : List ReloadExec) : Prop :=
  rs.Pairwise (fun a b => a.start + debounceDelay ≤ b.start)

/-- The invariant of the loop and its timers. -/
structure Wf (w : World) (s : LoopState) : Prop where
  shape : NoPending s.timers ∨
    ∃ tm, ArmedWith s tm ∧ ∀ ex ∈ s.reloads, ex.start + debounceDelay ≤ tm.when
  started : ∀ ex ∈ s.reloads, ex.start ≤ s.now
  spaced : Spaced s.reloads
  made : ∀ ex ∈ s.reloads, ∃ k tm, ex = callback w k tm
  counted : s.reloads.length = (s.timers.filter Timer.isFired).length

/-- At most one timer is pending, a pending timer is the one stored in
`debounceTimer`, and the executions started are as many as the timers that
fired (so no more than the timers made). -/
def OneTimer (s : LoopState) : Prop :=
  (s.timers.filter Timer.isPending).length ≤ 1 ∧
  (∀ (i : Nat) (tm : Timer), s.timers[i]? = some tm → tm.status = .pending →
    s.debounceTimer = some i) ∧
  s.reloads.length = (s.timers.filter Timer.isFired).length ∧
  s.reloads.length ≤ s.timers.length

/-- The executions that are running at instant `t`. -/
def inProgress (rs : List ReloadExec) (t : Nat) : List ReloadExec :=
  rs.filter (fun ex => decide (ex.start ≤ t) && decide (t < ex.finish))

/-- A world in which every command succeeds at once. -/
def calmWorld : World :=
  { runner := fun _ _ _ => okResult, cmdTime := fun _ _ => 0 }

/-- A world in which every command succeeds and `systemctl restart kubelet`
takes five seconds. -/
def slowWorld : World :=
  { runner := fun _ _ _ => okResult
    cmdTime := fun _ c => if c = restartCmd then 5 * Second else 0 }

/-- A world in which every command succeeds and `systemctl restart kubelet`
takes one second. -/
def steadyWorld : World :=
  { runner := fun _ _ _ => okResult
    cmdTime := fun _ c => if c = restartCmd then Second else 0 }

/-- A write to `/var/lib/kubelet/conf.d/a.conf`. -/
def writeConf : Event := { Name := "/var/lib/kubelet/conf.d/a.conf", Op := Write }

/-! ## The reload chain -/

theorem reloadKubelet_of_restart_ok (run : Runner)
    (h : (run [daemonReloadCmd] restartCmd).err = none) :
    (reloadKubelet run).cmds = [daemonReloadCmd, restartCmd] ∧
      (reloadKubelet run).ret = none := by
  simp [reloadKubelet, h]

theorem reloadKubelet_of_restart_failed (run : Runner) (e2 : GoError)
    (h : (run [daemonReloadCmd] restartCmd).err = some e2) :
    (reloadKubelet run).cmds = [daemonReloadCmd, restartCmd, sighupCmd] ∧
      (reloadKubelet run).ret =
        (match (run [daemonReloadCmd, restartCmd] sighupCmd).err with
          | some e3 =>
            some (sighupError e3 (run [daemonReloadCmd, restartCmd] sighupCmd).output)
          | none => none) := by
  cases h3 : (run [daemonReloadCmd, restartCmd] sighupCmd).err <;>
    simp [reloadKubelet, h, h3]

/-- C3: whatever daemon-reload answers, if `systemctl restart kubelet`
succeeds then `reloadKubelet` returns nil and the commands executed are exactly
daemon-reload and restart; the `pkill -HUP` command is not among them. -/
theorem reloadKubelet_restart_ok (run : Runner)
    (h : (restartOutcome run).err = none) :
    (reloadKubelet run).ret = none ∧
      (reloadKubelet run).cmds = [daemonReloadCmd, restartCmd] ∧
      sighupCmd ∉ (reloadKubelet run).cmds := by
  have hr := reloadKubelet_of_restart_ok run h
  refine ⟨hr.2, hr.1, ?_⟩
  rw [hr.1]
  decide

theorem reloadKubelet_restart_ok_witness :
    (restartOutcome (runnerOf (failResult "boom") okResult (failResult "no process"))).err = none ∧
    ((reloadKubelet (runnerOf (failResult "boom") okResult (failResult "no process"))).ret = none ∧
      (reloadKubelet (runnerOf (failResult "boom") okResult (failResult "no process"))).cmds =
        [daemonReloadCmd, restartCmd] ∧
      sighupCmd ∉
        (reloadKubelet (runnerOf (failResult "boom") okResult (failResult "no process"))).cmds) :=
  ⟨by decide, reloadKubelet_restart_ok _ (by decide)⟩

/-- C4: whatever daemon-reload answers, if `systemctl restart kubelet` fails
then `pkill -HUP` is executed exactly once, as the third and last command, and
the result of `reloadKubelet` is the outcome of that step: nil exactly when it
succeeds; when it fails, the error built at line 107 from the error and the
combined output of `pkill`, which wraps that error and ends with that output.
Any other run in which restart fails and `pkill` answers the same returns the
same result, whatever daemon-reload and restart printed. -/
theorem reloadKubelet_restart_failed (run : Runner)
    (h : (restartOutcome run).err ≠ none) :
    (reloadKubelet run).cmds = [daemonReloadCmd, restartCmd, sighupCmd] ∧
      (reloadKubelet run).cmds.count sighupCmd = 1 ∧
      ((reloadKubelet run).ret = none ↔ (sighupOutcome run).err = none) ∧
      (∀ e3, (sighupOutcome run).err = some e3 →
        (reloadKubelet run).ret = some (sighupError e3 (sighupOutcome run).output) ∧
        (sighupError e3 (sighupOutcome run).output).Unwrap = some e3 ∧
        ∃ pre, (sighupError e3 (sighupOutcome run).output).Error =
          pre ++ e3.Error ++ ", output: " ++ (sighupOutcome run).output) ∧
      (∀ run2 : Runner, (restartOutcome run2).err ≠ none →
        sighupOutcome run2 = sighupOutcome run →
        (reloadKubelet run2).ret = (reloadKubelet run).ret) := by
  obtain ⟨e2, he2⟩ := Option.ne_none_iff_exists'.mp h
  have hr := reloadKubelet_of_restart_failed run e2 he2
  refine ⟨hr.1, ?_, ?_, ?_, ?_⟩
  · rw [hr.1]; decide
  · rw [hr.2]
    unfold sighupOutcome
    cases (run [daemonReloadCmd, restartCmd] sighupCmd).err <;> simp
  · intro e3 h3
    unfold sighupOutcome at h3 ⊢
    refine ⟨?_, rfl, ⟨"failed to reload kubelet with SIGHUP: ", rfl⟩⟩
    rw [hr.2, h3]
  · intro run2 h2 hsame
    obtain ⟨e2b, he2b⟩ := Option.ne_none_iff_exists'.mp h2
    have hr2 := reloadKubelet_of_restart_failed run2 e2b he2b
    unfold sighupOutcome at hsame
    rw [hr2.2, hr.2, hsame]

theorem reloadKubelet_restart_failed_witness :
    (restartOutcome (runnerOf okResult (failResult "unit failed") (failResult "no process"))).err
      ≠ none ∧
    (reloadKubelet (runnerOf okResult (failResult "unit failed") (failResult "no process"))).ret =
      some (.wrapError
        "failed to reload kubelet with SIGHUP: exit status 1, output: no process"
        (.errorString "exit status 1")) := by
  have h := reloadKubelet_restart_failed
    (runnerOf okResult (failResult "unit failed") (failResult "no process")) (by decide)
  exact ⟨by decide, (h.2.2.2.1 (.errorString "exit status 1") (by decide)).1⟩

/-- C5: daemon-reload is no gate.  Two runs of `reloadKubelet` in which the
restart step answers the same and the signal step answers the same, whatever
daemon-reload answers in each, both execute the restart, execute the same
commands and return the same result. -/
theorem reloadKubelet_daemon_reload_no_gate (run run2 : Runner)
    (h2 : restartOutcome run = restartOutcome run2)
    (h3 : sighupOutcome run = sighupOutcome run2) :
    (reloadKubelet run).cmds.take 2 = [daemonReloadCmd, restartCmd] ∧
      (reloadKubelet run2).cmds.take 2 = [daemonReloadCmd, restartCmd] ∧
      (reloadKubelet run).cmds = (reloadKubelet run2).cmds ∧
      (reloadKubelet run).ret = (reloadKubelet run2).ret := by
  unfold restartOutcome at h2
  unfold sighupOutcome at h3
  cases hr : (run [daemonReloadCmd] restartCmd).err with
  | none =>
    have hr2 : (run2 [daemonReloadCmd] restartCmd).err = none := by rw [← h2]; exact hr
    have a := reloadKubelet_of_restart_ok run hr
    have b := reloadKubelet_of_restart_ok run2 hr2
    rw [a.1, a.2, b.1, b.2]
    simp
  | some e2 =>
    have hr2 : (run2 [daemonReloadCmd] restartCmd).err = some e2 := by rw [← h2]; exact hr
    have a := reloadKubelet_of_restart_failed run e2 hr
    have b := reloadKubelet_of_restart_failed run2 e2 hr2
    rw [a.1, a.2, b.1, b.2, h3]
    simp

theorem reloadKubelet_daemon_reload_no_gate_witness :
    daemonReloadOutcome (runnerOf okResult (failResult "unit failed") (failResult "no process")) ≠
      daemonReloadOutcome
        (runnerOf (failResult "boom") (failResult "unit failed") (failResult "no process")) ∧
    (reloadKubelet (runnerOf okResult (failResult "unit failed") (failResult "no process"))).ret =
      (reloadKubelet
        (runnerOf (failResult "boom") (failResult "unit failed") (failResult "no process"))).ret :=
  ⟨by decide,
    (reloadKubelet_daemon_reload_no_gate
      (runnerOf okResult (failResult "unit failed") (failResult "no process"))
      (runnerOf (failResult "boom") (failResult "unit failed") (failResult "no process"))
      (by decide) (by decide)).2.2.2⟩

/-- C9: against its doc comment ("reloads the kubelet service without
restarting it"), every execution of `reloadKubelet` runs
`systemctl restart kubelet`, as its second command, whatever the commands
answer. -/
theorem reloadKubelet_always_restarts (run : Runner) :
    restartCmd ∈ (reloadKubelet run).cmds ∧
      (reloadKubelet run).cmds.get? 1 = some (exec_Command "systemctl" ["restart", "kubelet"]) := by
  cases hr : (run [daemonReloadCmd] restartCmd).err with
  | none =>
    rw [(reloadKubelet_of_restart_ok run hr).1]
    exact ⟨by decide, rfl⟩
  | some e2 =>
    rw [(reloadKubelet_of_restart_failed run e2 hr).1]
    exact ⟨by decide, rfl⟩

/-! ## Timers: list lemmas -/

theorem noPending_append (l : List Timer) (tm : Timer) :
    NoPending (l ++ [tm]) ↔ NoPending l ∧ tm.status ≠ .pending := by
  unfold NoPending
  constructor
  · intro h
    exact ⟨fun x hx => h x (by simp [hx]), h tm (by simp)⟩
  · rintro ⟨h1, h2⟩ x hx
    rcases List.mem_append.mp hx with hx | hx
    · exact h1 x hx
    · rw [List.mem_singleton.mp hx]; exact h2

theorem expire_of_not_pending (now : Nat) (tm : Timer) (h : tm.status ≠ .pending) :
    tm.expire now = tm := by
  simp [Timer.expire, Timer.due, h]

theorem due_of_not_pending (now : Nat) (tm : Timer) (h : tm.status ≠ .pending) :
    tm.due now = false := by
  simp [Timer.due, h]

theorem map_expire_noPending (now : Nat) (l : List Timer) (h : NoPending l) :
    l.map (Timer.expire now) = l := by
  induction l with
  | nil => rfl
  | cons a l ih =>
    rw [List.map_cons, expire_of_not_pending now a (h a (by simp)),
      ih (fun x hx => h x (by simp [hx]))]

theorem filter_due_noPending (now : Nat) (l : List Timer) (h : NoPending l) :
    l.filter (Timer.due now) = [] := by
  rw [List.filter_eq_nil_iff]
  intro x hx
  simp [due_of_not_pending now x (h x hx)]

theorem filter_isPending_noPending (l : List Timer) (h : NoPending l) :
    l.filter Timer.isPending = [] := by
  rw [List.filter_eq_nil_iff]
  intro x hx
  simp [Timer.isPending, h x hx]

theorem stop_of_not_pending (tm : Timer) (h : tm.status ≠ .pending) : tm.Stop = tm := by
  simp [Timer.Stop, h]

theorem stop_not_pending (tm : Timer) : tm.Stop.status ≠ .pending := by
  unfold Timer.Stop
  split
  · simp
  · assumption

theorem stopAt_noPending (l : List Timer) (h : NoPending l) (i : Nat) : stopAt i l = l := by
  induction l generalizing i with
  | nil => cases i <;> rfl
  | cons a l ih =>
    cases i with
    | zero => simp [stopAt, stop_of_not_pending a (h a (by simp))]
    | succ i => simp [stopAt, ih (fun x hx => h x (by simp [hx])) i]

theorem stopAt_length_append (l : List Timer) (tm : Timer) :
    stopAt l.length (l ++ [tm]) = l ++ [tm.Stop] := by
  induction l with
  | nil => rfl
  | cons a l ih => simp [stopAt, ih]

theorem stopAt_length (i : Nat) (l : List Timer) : (stopAt i l).length = l.length := by
  induction l generalizing i with
  | nil => cases i <;> rfl
  | cons a l ih =>
    cases i with
    | zero => simp [stopAt]
    | succ i => simp [stopAt, ih i]

/-! ## The loop: one step -/

theorem advance_quiet (w : World) (s : LoopState) (t : Nat) (h : NoPending s.timers) :
    advance w s t = { s with now := max s.now t } := by
  simp [advance, map_expire_noPending _ _ h, filter_due_noPending _ _ h, startReloads]

theorem advance_armed_wait (w : World) (s : LoopState) (t : Nat) (l : List Timer) (tm : Timer)
    (hl : s.timers = l ++ [tm]) (hq : NoPending l) (hlate : max s.now t < tm.when) :
    advance w s t = { s with now := max s.now t } := by
  have hd : tm.due (max s.now t) = false := by
    simp only [Timer.due, Bool.and_eq_false_imp, decide_eq_true_eq, decide_eq_false_iff_not]
    intro _; omega
  have he : tm.expire (max s.now t) = tm := by simp [Timer.expire, hd]
  simp [advance, hl, map_expire_noPending _ _ hq, filter_due_noPending _ _ hq, hd, he,
    startReloads]

theorem advance_armed_fire (w : World) (s : LoopState) (t : Nat) (l : List Timer) (tm : Timer)
    (hl : s.timers = l ++ [tm]) (hq : NoPending l) (hp : tm.status = .pending)
    (hdue : tm.when ≤ max s.now t) :
    advance w s t =
      { s with
        now := max s.now t
        timers := l ++ [{ tm with status := .fired }]
        reloads := s.reloads ++ [callback w s.reloads.length tm] } := by
  have hd : tm.due (max s.now t) = true := by
    simp [Timer.due, hp, hdue]
  have he : tm.expire (max s.now t) = { tm with status := .fired } := by simp [Timer.expire, hd]
  simp [advance, hl, map_expire_noPending _ _ hq, filter_due_noPending _ _ hq, hd, he,
    startReloads]

theorem handleEvent_qualifies (s : LoopState) (e : Event) (h : Qualifies e) :
    handleEvent s e =
      { s with
        logs := s.logs ++ [LogLine.detected e.Name e.Op]
        timers :=
          (match s.debounceTimer with
            | some i => stopAt i s.timers
            | none => s.timers) ++ [AfterFunc s.now debounceDelay e.Name]
        debounceTimer :=
          some (match s.debounceTimer with
            | some i => stopAt i s.timers
            | none => s.timers).length } := by
  unfold Qualifies at h
  simp [handleEvent, h.1, h.2]

theorem handleEvent_not_qualifies (s : LoopState) (e : Event) (h : ¬ Qualifies e) :
    handleEvent s e = { s with logs := (handleEvent s e).logs } := by
  unfold Qualifies at h
  unfold handleEvent
  by_cases hop : e.Op &&& Write = Write ∨ e.Op &&& Create = Create
  · have hs : HasSuffix e.Name ".conf" = false := by
      cases hh : HasSuffix e.Name ".conf"
      · rfl
      · exact absurd ⟨hop, hh⟩ h
    simp [hop, hs]
  · simp [hop]

/-! ## Arming -/

theorem armedWith_afterFunc (s : LoopState) (stopped : List Timer) (now : Nat) (name : String)
    (ht : s.timers = stopped ++ [AfterFunc now debounceDelay name]) (hq : NoPending stopped)
    (hd : s.debounceTimer = some stopped.length) :
    ArmedWith s (AfterFunc now debounceDelay name) :=
  ⟨stopped, ht, hq, rfl, hd⟩

theorem arm_quiet (w : World) (s : LoopState) (t : Nat) (e : Event)
    (hq : NoPending s.timers) (he : Qualifies e) :
    ArmedWith (handleEvent (advance w s t) e) (AfterFunc (max s.now t) debounceDelay e.Name) ∧
      (handleEvent (advance w s t) e).reloads = s.reloads ∧
      (handleEvent (advance w s t) e).now = max s.now t := by
  rw [advance_quiet w s t hq, handleEvent_qualifies _ e he]
  refine ⟨?_, rfl, rfl⟩
  cases hd : s.debounceTimer with
  | none => exact armedWith_afterFunc _ s.timers _ _ (by simp [hd]) hq (by simp [hd])
  | some i =>
    exact armedWith_afterFunc _ s.timers _ _ (by simp [hd, stopAt_noPending _ hq])
      hq (by simp [hd, stopAt_noPending _ hq])

theorem arm_early (w : World) (s : LoopState) (t : Nat) (e : Event) (tm : Timer)
    (ha : ArmedWith s tm) (hlate : max s.now t < tm.when) (he : Qualifies e) :
    ArmedWith (handleEvent (advance w s t) e) (AfterFunc (max s.now t) debounceDelay e.Name) ∧
      (handleEvent (advance w s t) e).reloads = s.reloads ∧
      (handleEvent (advance w s t) e).now = max s.now t := by
  obtain ⟨l, hl, hq, hp, hd⟩ := ha
  rw [advance_armed_wait w s t l tm hl hq hlate, handleEvent_qualifies _ e he]
  refine ⟨?_, rfl, rfl⟩
  have hq2 : NoPending (l ++ [tm.Stop]) :=
    (noPending_append l tm.Stop).mpr ⟨hq, stop_not_pending tm⟩
  exact armedWith_afterFunc _ (l ++ [tm.Stop]) _ _
    (by simp [hd, hl, stopAt_length_append]) hq2 (by simp [hd, hl, stopAt_length_append])

theorem arm_late (w : World) (s : LoopState) (t : Nat) (e : Event) (tm : Timer)
    (ha : ArmedWith s tm) (hdue : tm.when ≤ max s.now t) (he : Qualifies e) :
    ArmedWith (handleEvent (advance w s t) e) (AfterFunc (max s.now t) debounceDelay e.Name) ∧
      (handleEvent (advance w s t) e).reloads =
        s.reloads ++ [callback w s.reloads.length tm] ∧
      (handleEvent (advance w s t) e).now = max s.now t := by
  obtain ⟨l, hl, hq, hp, hd⟩ := ha
  rw [advance_armed_fire w s t l tm hl hq hp hdue, handleEvent_qualifies _ e he]
  refine ⟨?_, rfl, rfl⟩
  have hq2 : NoPending (l ++ [{ tm with status := .fired }]) :=
    (noPending_append l _).mpr ⟨hq, by simp⟩
  have hstop : stopAt l.length (l ++ [{ tm with status := .fired }]) =
      l ++ [{ tm with status := .fired }] := stopAt_noPending _ hq2 _
  exact armedWith_afterFunc _ (l ++ [{ tm with status := .fired }]) _ _
    (by simp [hd, hstop]) hq2 (by simp [hd, hstop])

theorem advance_armed_reloads (w : World) (s : LoopState) (h : Nat) (tm : Timer)
    (ha : ArmedWith s tm) :
    (advance w s h).reloads =
      if tm.when ≤ max s.now h then s.reloads ++ [callback w s.reloads.length tm]
      else s.reloads := by
  obtain ⟨l, hl, hq, hp, hd⟩ := ha
  by_cases hdue : tm.when ≤ max s.now h
  · rw [advance_armed_fire w s h l tm hl hq hp hdue, if_pos hdue]
  · rw [advance_armed_wait w s h l tm hl hq (by omega), if_neg hdue]

/-- The last element of a non-empty burst. -/
theorem burst_last_cons (p q : Nat × Event) (rest : List (Nat × Event)) :
    (p :: q :: rest).getLast (List.cons_ne_nil _ _) =
      (q :: rest).getLast (List.cons_ne_nil _ _) := by
  simp [List.getLast_cons]

theorem loop_burst (w : World) (rest : List (Nat × Event)) (s : LoopState) (p : Nat × Event)
    (ha : ArmedWith s (AfterFunc p.1 debounceDelay p.2.Name)) (hnow : s.now = p.1)
    (hq : ∀ q ∈ rest, Qualifies q.2)
    (hgap : List.Chain (fun a b : Nat × Event => a.1 ≤ b.1 ∧ b.1 < a.1 + debounceDelay) p rest) :
    ArmedWith (loop w s (rest.map (fun q => (q.1, Recv.event q.2))))
        (AfterFunc ((p :: rest).getLast (List.cons_ne_nil _ _)).1 debounceDelay
          ((p :: rest).getLast (List.cons_ne_nil _ _)).2.Name) ∧
      (loop w s (rest.map (fun q => (q.1, Recv.event q.2)))).reloads = s.reloads ∧
      (loop w s (rest.map (fun q => (q.1, Recv.event q.2)))).now =
        ((p :: rest).getLast (List.cons_ne_nil _ _)).1 := by
  induction rest generalizing s p with
  | nil => exact ⟨ha, rfl, hnow⟩
  | cons q rest ih =>
    rw [List.chain_cons] at hgap
    obtain ⟨⟨hle, hlt⟩, hrest⟩ := hgap
    have hmax : max s.now q.1 = q.1 := by rw [hnow]; exact max_eq_right hle
    have hstep := arm_early w s q.1 q.2 _ ha
      (by rw [hmax]; simpa [AfterFunc] using hlt) (hq q (by simp))
    rw [hmax] at hstep
    have := ih (handleEvent (advance w s q.1) q.2) q hstep.1 hstep.2.2
      (fun x hx => hq x (by simp [hx])) hrest
    rw [burst_last_cons]
    simp only [List.map_cons, loop]
    rw [hstep.2.1] at this
    exact this

theorem debounceDelay_pos : 0 < debounceDelay := by decide

theorem loop_not_qualifying (w : World) (evs : List (Nat × Event)) (s : LoopState)
    (hquiet : NoPending s.timers) (hq : ∀ p ∈ evs, ¬ Qualifies p.2) :
    NoPending (loop w s (evs.map (fun p => (p.1, Recv.event p.2)))).timers ∧
      (loop w s (evs.map (fun p => (p.1, Recv.event p.2)))).reloads = s.reloads := by
  induction evs generalizing s with
  | nil => exact ⟨hquiet, rfl⟩
  | cons p rest ih =>
    simp only [List.map_cons, loop]
    have hstep : handleEvent (advance w s p.1) p.2 =
        { advance w s p.1 with logs := (handleEvent (advance w s p.1) p.2).logs } :=
      handleEvent_not_qualifies _ _ (hq p (by simp))
    rw [advance_quiet w s p.1 hquiet] at hstep
    rw [advance_quiet w s p.1 hquiet, hstep]
    exact ih _ hquiet (fun x hx => hq x (by simp [hx]))

/-! ## The debounce window -/

/-- C1: from a state of the loop with no pending timer, for every non-empty
sequence of qualifying events (Write or Create on a name ending in `.conf`)
handled at instants that never decrease and are each strictly less than
`debounceDelay` after the one before, exactly one timer function runs: there
is one execution `ex`, started at (instant of the last event) + `debounceDelay`
for the name of the last event, which is a call of `reloadKubelet` (the next
invocation in the world, blocking for the time of its commands), such that the
executions observed up to any horizon are the earlier ones alone before that
instant and the earlier ones followed by `ex` from that instant on. -/
theorem debounce_burst_one_reload (w : World) (s : LoopState) (evs : List (Nat × Event))
    (hne : evs ≠ [])
    (hquiet : NoPending s.timers)
    (hnow : s.now ≤ (evs.head hne).1)
    (hq : ∀ p ∈ evs, Qualifies p.2)
    (hgap : evs.Chain' (fun a b => a.1 ≤ b.1 ∧ b.1 < a.1 + debounceDelay)) :
    ∃ ex : ReloadExec,
      ex.start = (evs.getLast hne).1 + debounceDelay ∧
      ex.name = (evs.getLast hne).2.Name ∧
      ex.run = reloadKubelet (w.runner s.reloads.length) ∧
      ex.finish = ex.start + chainTime w s.reloads.length ∧
      ∀ horizon,
        (runUntil w s (evs.map (fun p => (p.1, Recv.event p.2))) horizon).reloads =
          if (evs.getLast hne).1 + debounceDelay ≤ horizon then s.reloads ++ [ex]
          else s.reloads := by
  cases evs with
  | nil => exact absurd rfl hne
  | cons p rest =>
    refine ⟨callback w s.reloads.length
      (AfterFunc ((p :: rest).getLast hne).1 debounceDelay ((p :: rest).getLast hne).2.Name),
      rfl, rfl, rfl, rfl, ?_⟩
    intro horizon
    have hmax : max s.now p.1 = p.1 := max_eq_right hnow
    have hfirst := arm_quiet w s p.1 p.2 hquiet (hq p (by simp))
    rw [hmax] at hfirst
    have hb := loop_burst w rest (handleEvent (advance w s p.1) p.2) p hfirst.1 hfirst.2.2
      (fun x hx => hq x (by simp [hx])) hgap
    have hfin := advance_armed_reloads w _ horizon _ hb.1
    simp only [runUntil, List.map_cons, loop]
    rw [hfin, hb.2.1, hfirst.2.1, hb.2.2]
    have hpos := debounceDelay_pos
    by_cases hh : ((p :: rest).getLast hne).1 + debounceDelay ≤ horizon
    · rw [if_pos hh, if_pos (by simp only [AfterFunc]; omega)]
    · rw [if_neg hh, if_neg (by simp only [AfterFunc]; omega)]

theorem debounce_burst_one_reload_witness :
    ∃ ex : ReloadExec,
      ex.start = 2500000000 ∧
      ex.name = "/var/lib/kubelet/conf.d/a.conf" ∧
      ex.run.cmds = [daemonReloadCmd, restartCmd] ∧
      ex.run.ret = none ∧
      ex.finish = 3500000000 ∧
      ∀ horizon,
        (runUntil steadyWorld initState
          [(0, Recv.event writeConf), (500000000, Recv.event writeConf)] horizon).reloads =
          if 2500000000 ≤ horizon then [ex] else [] := by
  obtain ⟨ex, h1, h2, h3, h4, h5⟩ := debounce_burst_one_reload steadyWorld initState
    [(0, writeConf), (500000000, writeConf)] (by simp) (by intro tm h; cases h)
    (by decide) (by decide)
    (List.chain'_cons.mpr ⟨by decide, List.chain'_singleton _⟩)
  refine ⟨ex, h1, h2, ?_, ?_, ?_, fun horizon => by simpa [initState] using h5 horizon⟩
  · rw [h3]; rfl
  · rw [h3]; rfl
  · rw [h4, h1]; rfl

/-- C6: from a state of the loop with no pending timer, two qualifying events
handled `debounceDelay + eps` apart with `eps > 0`, and no other event, start
two executions of the timer function: one at `debounceDelay` after the first
event, for its name, and one at `debounceDelay` after the second, for its
name.  Each is a call of `reloadKubelet`, the next two invocations in the
world, each blocking for the time of its commands.  The first has started when
the second event is handled; the second is observed from its instant on. -/
theorem two_spaced_events_two_reloads (w : World) (s : LoopState) (t1 t2 eps : Nat)
    (e1 e2 : Event)
    (hquiet : NoPending s.timers)
    (hnow : s.now ≤ t1)
    (h1 : Qualifies e1) (h2 : Qualifies e2)
    (heps : 0 < eps) (ht : t2 = t1 + debounceDelay + eps) :
    ∃ ex1 ex2 : ReloadExec,
      ex1.start = t1 + debounceDelay ∧ ex1.name = e1.Name ∧
      ex2.start = t2 + debounceDelay ∧ ex2.name = e2.Name ∧
      ex1.run = reloadKubelet (w.runner s.reloads.length) ∧
      ex2.run = reloadKubelet (w.runner (s.reloads.length + 1)) ∧
      ex1.finish = ex1.start + chainTime w s.reloads.length ∧
      ex2.finish = ex2.start + chainTime w (s.reloads.length + 1) ∧
      (loop w s [(t1, Recv.event e1), (t2, Recv.event e2)]).reloads = s.reloads ++ [ex1] ∧
      ∀ horizon,
        (runUntil w s [(t1, Recv.event e1), (t2, Recv.event e2)] horizon).reloads =
          if t2 + debounceDelay ≤ horizon then s.reloads ++ [ex1, ex2]
          else s.reloads ++ [ex1] := by
  refine ⟨callback w s.reloads.length (AfterFunc t1 debounceDelay e1.Name),
    callback w (s.reloads.length + 1) (AfterFunc t2 debounceDelay e2.Name),
    rfl, rfl, rfl, rfl, rfl, rfl, rfl, rfl, ?_⟩
  have hmax : max s.now t1 = t1 := max_eq_right hnow
  have hfirst := arm_quiet w s t1 e1 hquiet h1
  rw [hmax] at hfirst
  have hmax2 : max (handleEvent (advance w s t1) e1).now t2 = t2 := by
    rw [hfirst.2.2]; exact max_eq_right (by omega)
  have hsecond := arm_late w (handleEvent (advance w s t1) e1) t2 e2 _ hfirst.1
    (by rw [hmax2]; simp only [AfterFunc]; omega) h2
  rw [hmax2, hfirst.2.1] at hsecond
  refine ⟨?_, ?_⟩
  · simp only [loop]
    exact hsecond.2.1
  · intro horizon
    have hfin := advance_armed_reloads w _ horizon _ hsecond.1
    simp only [runUntil, loop]
    rw [hfin, hsecond.2.1, hsecond.2.2]
    have hpos := debounceDelay_pos
    by_cases hh : t2 + debounceDelay ≤ horizon
    · rw [if_pos hh, if_pos (by simp only [AfterFunc]; omega)]
      simp
    · rw [if_neg hh, if_neg (by simp only [AfterFunc]; omega)]

theorem two_spaced_events_two_reloads_witness :
    ∃ ex1 ex2 : ReloadExec,
      ex1.start = 2000000000 ∧ ex2.start = 4300000000 ∧
      ex1.run.cmds = [daemonReloadCmd, restartCmd] ∧
      ex2.run.cmds = [daemonReloadCmd, restartCmd] ∧
      ex1.finish = 3000000000 ∧ ex2.finish = 5300000000 ∧
      (runUntil steadyWorld initState
        [(0, Recv.event writeConf), (2300000000, Recv.event writeConf)] 6000000000).reloads =
        [ex1, ex2] := by
  obtain ⟨ex1, ex2, a1, _, a2, _, r1, r2, f1, f2, _, h⟩ :=
    two_spaced_events_two_reloads steadyWorld initState
      0 2300000000 300000000 writeConf writeConf (by intro tm h; cases h) (by decide)
      (by decide) (by decide) (by decide) (by decide)
  refine ⟨ex1, ex2, by simpa using a1, by simpa using a2, ?_, ?_, ?_, ?_, ?_⟩
  · rw [r1]; rfl
  · rw [r2]; rfl
  · rw [f1, a1]; rfl
  · rw [f2, a2]; rfl
  · have := h 6000000000
    simpa [initState] using this

/-! ## The event filter -/

/-- C2: handling an event makes a new timer exactly when the operation
contains Write or Create and the name ends in `.conf`.  A qualifying event
stores in `debounceTimer` a new pending timer due `debounceDelay` later.  An
event that does not qualify changes nothing but the log: the timers (none is
made, none is stopped), `debounceTimer`, the executions, the clock and the
result stay as they were; and from a state with no pending timer, events that
do not qualify never start an execution, up to any horizon. -/
theorem handleEvent_arms_iff_qualifies (w : World) (s : LoopState) (e : Event) :
    ((handleEvent s e).timers.length = s.timers.length + 1 ↔
      ((e.Op &&& Write = Write ∨ e.Op &&& Create = Create) ∧
        HasSuffix e.Name ".conf" = true)) ∧
    (Qualifies e →
      (handleEvent s e).timers.getLast? = some (AfterFunc s.now debounceDelay e.Name) ∧
      (handleEvent s e).debounceTimer = some s.timers.length) ∧
    (¬ Qualifies e →
      handleEvent s e = { s with logs := (handleEvent s e).logs } ∧
      (handleEvent s e).timers = s.timers ∧
      (handleEvent s e).debounceTimer = s.debounceTimer ∧
      (handleEvent s e).reloads = s.reloads) ∧
    (∀ (evs : List (Nat × Event)) (horizon : Nat), NoPending s.timers →
      (∀ p ∈ evs, ¬ Qualifies p.2) →
      (runUntil w s (evs.map (fun p => (p.1, Recv.event p.2))) horizon).reloads = s.reloads) := by
  have hlen : ∀ st : LoopState,
      (match st.debounceTimer with
        | some i => stopAt i st.timers
        | none => st.timers).length = st.timers.length := by
    intro st
    cases st.debounceTimer with
    | none => rfl
    | some i => exact stopAt_length i st.timers
  have hyes : Qualifies e →
      (handleEvent s e).timers.getLast? = some (AfterFunc s.now debounceDelay e.Name) ∧
      (handleEvent s e).debounceTimer = some s.timers.length := by
    intro hq
    rw [handleEvent_qualifies s e hq]
    exact ⟨by simp, by simp [hlen s]⟩
  have hno : ¬ Qualifies e →
      handleEvent s e = { s with logs := (handleEvent s e).logs } ∧
      (handleEvent s e).timers = s.timers ∧
      (handleEvent s e).debounceTimer = s.debounceTimer ∧
      (handleEvent s e).reloads = s.reloads := by
    intro hq
    have h := handleEvent_not_qualifies s e hq
    refine ⟨h, ?_, ?_, ?_⟩ <;> rw [h]
  refine ⟨?_, hyes, hno, ?_⟩
  · constructor
    · intro h
      by_contra hq
      have := (hno hq).2.1
      rw [this] at h
      omega
    · intro hq
      rw [handleEvent_qualifies s e hq]
      simp [hlen s]
  · intro evs horizon hquiet hq
    have h := loop_not_qualifying w evs s hquiet hq
    unfold runUntil
    rw [advance_quiet w _ horizon h.1]
    exact h.2

theorem handleEvent_arms_iff_qualifies_witness :
    Qualifies writeConf ∧
    ¬ Qualifies { Name := "/var/lib/kubelet/conf.d/A.CONF", Op := Write } ∧
    ¬ Qualifies { Name := "/var/lib/kubelet/conf.d/a.conf", Op := Remove ||| Rename } ∧
    (handleEvent initState writeConf).debounceTimer = some 0 ∧
    (handleEvent initState { Name := "/var/lib/kubelet/conf.d/readme.txt", Op := Write }).timers
      = [] :=
  ⟨by decide, by decide, by decide,
    ((handleEvent_arms_iff_qualifies calmWorld initState writeConf).2.1 (by decide)).2,
    ((handleEvent_arms_iff_qualifies calmWorld initState
      { Name := "/var/lib/kubelet/conf.d/readme.txt", Op := Write }).2.2.1 (by decide)).2.1⟩

/-! ## Closed channels -/

/-- C8: when the loop finds the event channel or the error channel closed it
returns, in that iteration, the error "watcher event channel closed" or
"watcher error channel closed": the state is the one time alone has produced
(no timer made or stopped, no line logged), and what would be received next
is never handled.  A watcher error is logged, nothing else changes, and the
loop goes on with what it receives next. -/
theorem loop_closed_channel (w : World) (s : LoopState) (t : Nat) (rest : List (Nat × Recv)) :
    loop w s ((t, Recv.eventsClosed) :: rest) =
      { advance w s t with ret := some (.errorString "watcher event channel closed") } ∧
    loop w s ((t, Recv.errorsClosed) :: rest) =
      { advance w s t with ret := some (.errorString "watcher error channel closed") } ∧
    (loop w s ((t, Recv.eventsClosed) :: rest)).ret ≠ none ∧
    (loop w s ((t, Recv.errorsClosed) :: rest)).ret ≠ none ∧
    (loop w s ((t, Recv.eventsClosed) :: rest)).timers = (advance w s t).timers ∧
    (loop w s ((t, Recv.errorsClosed) :: rest)).timers = (advance w s t).timers ∧
    (loop w s ((t, Recv.eventsClosed) :: rest)).debounceTimer = s.debounceTimer ∧
    (loop w s ((t, Recv.errorsClosed) :: rest)).debounceTimer = s.debounceTimer ∧
    (loop w s ((t, Recv.eventsClosed) :: rest)).logs = s.logs ∧
    (loop w s ((t, Recv.errorsClosed) :: rest)).logs = s.logs ∧
    (∀ err : GoError,
      loop w s ((t, Recv.watcherError err) :: rest) =
        loop w { advance w s t with logs := s.logs ++ [LogLine.watcherError err] } rest ∧
      (loop w s [(t, Recv.watcherError err)]).ret = s.ret ∧
      (loop w s [(t, Recv.watcherError err)]).timers = (advance w s t).timers ∧
      (loop w s [(t, Recv.watcherError err)]).debounceTimer = s.debounceTimer) := by
  refine ⟨rfl, rfl, ?_, ?_, rfl, rfl, rfl, rfl, rfl, rfl, ?_⟩
  · simp [loop]
  · simp [loop]
  · intro err
    exact ⟨rfl, rfl, rfl, rfl⟩

/-! ## The invariant -/

theorem wf_init (w : World) : Wf w initState where
  shape := Or.inl (by intro tm h; cases h)
  started := by intro ex h; cases h
  spaced := List.Pairwise.nil
  made := by intro ex h; cases h
  counted := rfl

theorem wf_logs (w : World) (s : LoopState) (logs : List LogLine) (h : Wf w s) :
    Wf w { s with logs := logs } :=
  ⟨h.shape, h.started, h.spaced, h.made, h.counted⟩

theorem wf_ret (w : World) (s : LoopState) (ret : Option GoError) (h : Wf w s) :
    Wf w { s with ret := ret } :=
  ⟨h.shape, h.started, h.spaced, h.made, h.counted⟩

theorem filter_isFired_append_not_fired (l : List Timer) (tm : Timer)
    (h : tm.status ≠ .fired) :
    (l ++ [tm]).filter Timer.isFired = l.filter Timer.isFired := by
  simp [List.filter_append, Timer.isFired, h]

theorem filter_isFired_append_fired (l : List Timer) (tm : Timer)
    (h : tm.status = .fired) :
    (l ++ [tm]).filter Timer.isFired = l.filter Timer.isFired ++ [tm] := by
  simp [List.filter_append, Timer.isFired, h]

theorem wf_advance (w : World) (s : LoopState) (t : Nat) (h : Wf w s) :
    Wf w (advance w s t) := by
  rcases h.shape with hquiet | ⟨tm, ⟨l, hl, hq, hp, hd⟩, hsep⟩
  · rw [advance_quiet w s t hquiet]
    exact ⟨Or.inl hquiet, fun ex hex => le_trans (h.started ex hex) (le_max_left _ _),
      h.spaced, h.made, h.counted⟩
  · by_cases hdue : tm.when ≤ max s.now t
    · rw [advance_armed_fire w s t l tm hl hq hp hdue]
      refine ⟨Or.inl ?_, ?_, ?_, ?_, ?_⟩
      · exact (noPending_append l _).mpr ⟨hq, by simp⟩
      · intro ex hex
        rcases List.mem_append.mp hex with hex | hex
        · exact le_trans (h.started ex hex) (le_max_left _ _)
        · rw [List.mem_singleton.mp hex]; exact hdue
      · refine List.pairwise_append.mpr ⟨h.spaced, List.pairwise_singleton _ _, ?_⟩
        intro a ha b hb
        rw [List.mem_singleton.mp hb]
        exact hsep a ha
      · intro ex hex
        rcases List.mem_append.mp hex with hex | hex
        · exact h.made ex hex
        · exact ⟨_, _, List.mem_singleton.mp hex⟩
      · have hc := h.counted
        rw [hl, filter_isFired_append_not_fired l tm (by rw [hp]; simp)] at hc
        show (s.reloads ++ [callback w s.reloads.length tm]).length = _
        rw [filter_isFired_append_fired l _ rfl]
        simp [hc]
    · rw [advance_armed_wait w s t l tm hl hq (by omega)]
      exact ⟨Or.inr ⟨tm, ⟨l, hl, hq, hp, hd⟩, hsep⟩,
        fun ex hex => le_trans (h.started ex hex) (le_max_left _ _),
        h.spaced, h.made, h.counted⟩

theorem stopped_facts (w : World) (s : LoopState) (h : Wf w s) :
    NoPending (match s.debounceTimer with
      | some i => stopAt i s.timers
      | none => s.timers) ∧
    ((match s.debounceTimer with
      | some i => stopAt i s.timers
      | none => s.timers).filter Timer.isFired).length =
      (s.timers.filter Timer.isFired).length := by
  rcases h.shape with hquiet | ⟨tm, ⟨l, hl, hq, hp, hd⟩, _⟩
  · cases hd : s.debounceTimer with
    | none => exact ⟨hquiet, rfl⟩
    | some i =>
      show NoPending (stopAt i s.timers) ∧
        ((stopAt i s.timers).filter Timer.isFired).length =
          (s.timers.filter Timer.isFired).length
      rw [stopAt_noPending _ hquiet i]
      exact ⟨hquiet, rfl⟩
  · have hstop : tm.Stop.status = .stopped := by simp [Timer.Stop, hp]
    simp only [hd, hl, stopAt_length_append]
    refine ⟨(noPending_append l _).mpr ⟨hq, stop_not_pending tm⟩, ?_⟩
    rw [filter_isFired_append_not_fired l tm.Stop (by rw [hstop]; simp),
      filter_isFired_append_not_fired l tm (by rw [hp]; simp)]

theorem wf_handleEvent (w : World) (s : LoopState) (e : Event) (h : Wf w s) :
    Wf w (handleEvent s e) := by
  by_cases hq : Qualifies e
  · rw [handleEvent_qualifies s e hq]
    obtain ⟨hno, hcount⟩ := stopped_facts w s h
    refine ⟨Or.inr ⟨AfterFunc s.now debounceDelay e.Name, ⟨_, rfl, hno, rfl, rfl⟩, ?_⟩,
      h.started, h.spaced, h.made, ?_⟩
    · intro ex hex
      have := h.started ex hex
      simp only [AfterFunc]
      omega
    · show s.reloads.length = _
      rw [filter_isFired_append_not_fired _ _ (by simp [AfterFunc]), hcount]
      exact h.counted
  · rw [handleEvent_not_qualifies s e hq]
    exact wf_logs w s _ h

theorem wf_loop (w : World) (recvs : List (Nat × Recv)) (s : LoopState) (h : Wf w s) :
    Wf w (loop w s recvs) := by
  induction recvs generalizing s with
  | nil => exact h
  | cons p rest ih =>
    obtain ⟨t, r⟩ := p
    have ha := wf_advance w s t h
    cases r with
    | event e => exact ih _ (wf_handleEvent w _ e ha)
    | eventsClosed => exact wf_ret w _ _ ha
    | watcherError err => exact ih _ (wf_logs w _ _ ha)
    | errorsClosed => exact wf_ret w _ _ ha

theorem wf_runUntil (w : World) (recvs : List (Nat × Recv)) (horizon : Nat) :
    Wf w (runUntil w initState recvs horizon) :=
  wf_advance w _ horizon (wf_loop w recvs initState (wf_init w))

/-! ## One timer at a time -/

theorem pending_index_of_armed (l : List Timer) (tm x : Timer) (i : Nat)
    (hq : NoPending l) (hx : (l ++ [tm])[i]? = some x) (hp : x.status = .pending) :
    i = l.length := by
  by_cases hi : i < l.length
  · rw [List.getElem?_append_left hi] at hx
    exact absurd hp (hq x (List.getElem?_mem hx))
  · rw [List.getElem?_append_right (by omega)] at hx
    have hlt : i - l.length < 1 := by
      by_contra hge
      rw [List.getElem?_eq_none (by simp only [List.length_singleton]; omega)] at hx
      cases hx
    omega

theorem oneTimer_of_wf (w : World) (s : LoopState) (h : Wf w s) : OneTimer s := by
  have hle : s.reloads.length ≤ s.timers.length := by
    rw [h.counted]
    exact List.length_filter_le _ _
  rcases h.shape with hquiet | ⟨tm, ⟨l, hl, hq, hp, hd⟩, _⟩
  · refine ⟨by rw [filter_isPending_noPending _ hquiet]; simp, ?_, h.counted, hle⟩
    intro i x hx hpx
    exact absurd hpx (hquiet x (List.getElem?_mem hx))
  · refine ⟨?_, ?_, h.counted, hle⟩
    · rw [hl, List.filter_append, filter_isPending_noPending _ hq]
      simp [Timer.isPending, hp]
    · intro i x hx hpx
      rw [hl] at hx
      rw [hd, pending_index_of_armed l tm x i hq hx hpx]

/-- C7: in every state the loop reaches from its start (after any values
received, and after any passing of time), at most one timer is pending, and a
pending timer is the one stored in `debounceTimer`: a timer that was replaced
is stopped or has fired already, so it cannot fire later.  The executions of
the timer function are as many as the timers that fired, hence no more than
the timers made. -/
theorem at_most_one_pending_timer (w : World) (recvs : List (Nat × Recv)) (horizon : Nat) :
    OneTimer (loop w initState recvs) ∧ OneTimer (runUntil w initState recvs horizon) :=
  ⟨oneTimer_of_wf w _ (wf_loop w recvs initState (wf_init w)),
    oneTimer_of_wf w _ (wf_runUntil w recvs horizon)⟩

/-! ## Overlapping executions -/

theorem inProgress_le_one (rs : List ReloadExec) (hs : Spaced rs)
    (hshort : ∀ ex ∈ rs, ex.finish ≤ ex.start + debounceDelay) (t : Nat) :
    (inProgress rs t).length ≤ 1 := by
  induction rs with
  | nil => simp [inProgress]
  | cons a l ih =>
    unfold Spaced at hs
    rw [List.pairwise_cons] at hs
    have ihl := ih hs.2 (fun ex hex => hshort ex (by simp [hex]))
    by_cases ha : a.start ≤ t ∧ t < a.finish
    · have hnil : inProgress l t = [] := by
        unfold inProgress
        rw [List.filter_eq_nil_iff]
        intro b hb
        have h1 := hs.1 b hb
        have h2 := hshort a (by simp)
        simp only [Bool.and_eq_true, decide_eq_true_eq, not_and, not_lt]
        intro hbt
        omega
      have : inProgress (a :: l) t = a :: inProgress l t := by
        simp [inProgress, ha.1, ha.2]
      rw [this, hnil]
      simp
    · have : inProgress (a :: l) t = inProgress l t := by
        unfold inProgress
        rw [List.filter_cons_of_neg]
        simpa using ha
      rw [this]
      exact ihl

theorem callback_finish (w : World) (k : Nat) (tm : Timer) :
    (callback w k tm).finish = (callback w k tm).start + chainTime w k := rfl

/-- C10, as stated, fails: when `systemctl restart kubelet` takes five
seconds, writes to `a.conf` handled at 0s and at 2.5s start executions at 2s
and at 4.5s, and at 5s both are in progress. -/
theorem reloads_overlap_counterexample :
    ¬ ((inProgress
        (runUntil slowWorld initState
          [(0, Recv.event writeConf), (2500000000, Recv.event writeConf)]
          5000000000).reloads
        5000000000).length ≤ 1) := by
  decide

/-- C10 (amended): in every state reached from the start of the loop, each
execution of the timer function starts at least `debounceDelay` after the
one before; so if every `reloadKubelet` invocation takes at most
`debounceDelay`, at most one is in progress at any instant.  Nothing else
serializes them. -/
theorem reloads_spaced (w : World) (recvs : List (Nat × Recv)) (horizon : Nat) :
    Spaced (runUntil w initState recvs horizon).reloads ∧
    ((∀ k, chainTime w k ≤ debounceDelay) →
      ∀ t, (inProgress (runUntil w initState recvs horizon).reloads t).length ≤ 1) := by
  have hwf := wf_runUntil w recvs horizon
  refine ⟨hwf.spaced, fun hshort t => inProgress_le_one _ hwf.spaced ?_ t⟩
  intro ex hex
  obtain ⟨k, tm, rfl⟩ := hwf.made ex hex
  rw [callback_finish]
  have := hshort k
  omega

theorem chainTime_steadyWorld (k : Nat) : chainTime steadyWorld k = Second := by
  have h1 : (daemonReloadCmd = restartCmd) = False := by decide
  simp [chainTime, steadyWorld, reloadKubelet, okResult, h1]

theorem reloads_spaced_witness :
    (∀ k, 0 < chainTime steadyWorld k ∧ chainTime steadyWorld k ≤ debounceDelay) ∧
    (runUntil steadyWorld initState
      [(0, Recv.event writeConf), (2500000000, Recv.event writeConf)]
      5000000000).reloads.map (fun ex => (ex.start, ex.finish)) =
      [(2000000000, 3000000000), (4500000000, 5500000000)] ∧
    (inProgress
      (runUntil steadyWorld initState
        [(0, Recv.event writeConf), (2500000000, Recv.event writeConf)]
        5000000000).reloads
      2500000000).length = 1 ∧
    (inProgress
      (runUntil steadyWorld initState
        [(0, Recv.event writeConf), (2500000000, Recv.event writeConf)]
        5000000000).reloads
      5000000000).length = 1 := by
  have hshort : ∀ k, chainTime steadyWorld k ≤ debounceDelay := by
    intro k
    rw [chainTime_steadyWorld]
    decide
  have h := (reloads_spaced steadyWorld
    [(0, Recv.event writeConf), (2500000000, Recv.event writeConf)] 5000000000).2 hshort
  refine ⟨?_, by decide, ?_, ?_⟩
  · intro k
    rw [chainTime_steadyWorld]
    decide
  · exact Nat.le_antisymm (h 2500000000) (by decide)
  · exact Nat.le_antisymm (h 5000000000) (by decide)

end KubeletHelper
